import Mathlib

/-!
Verification of the worker-productivity-dashboard event-to-metrics engine
and its React dashboard frontend.

The backend engine (event admission, sorting, duration accumulation,
metric aggregation) is shallowly embedded below; timestamps and the
server-assigned ingestion order are natural numbers (seconds), derived
metric values are exact rationals, the event store is a list in insertion
order.  The frontend components (App.fetchMetrics and the three dashboard
components) are embedded as pure functions on an explicit component state.
-/

namespace Productivity

/-- Modelled from the spec: the closed set of event types
`{working, idle, absent, product_count}` (spec §3, Data Model). -/
inductive EventType where
  | working
  | idle
  | absent
  | product_count
deriving DecidableEq

/-- Modelled from the spec: `product_count` events are not states; the three
state types are `working`, `idle`, `absent` (spec §4.3). -/
def EventType.isState : EventType → Bool
  | .product_count => false
  | _ => true

/-- Modelled from the spec: an Event record (spec §3).  `timestamp` and
`received_at` are seconds; `received_at` is the server-assigned ingestion
timestamp, used only as the deterministic tie-break for ordering. -/
structure Event where
  timestamp : Nat
  worker_id : String
  workstation_id : String
  event_type : EventType
  confidence : Rat
  count : Nat
  received_at : Nat
deriving DecidableEq

/-- Modelled from the spec: the identity key
`(timestamp, worker_id, workstation_id, event_type)` used for
deduplication (spec §3, Invariant). -/
def eventKey (e : Event) : Nat × String × String × EventType :=
  (e.timestamp, e.worker_id, e.workstation_id, e.event_type)

/-- Number of stored events carrying a given identity key. -/
def countKey (db : List Event) (k : Nat × String × String × EventType) : Nat :=
  db.countP (fun e => decide (eventKey e = k))

/-- Modelled from the spec: `admit(candidate) -> StoredEvent` of the Event
Deduplicator (spec §4.1): look up an existing stored event matching the
identity key; if found return it unchanged and write nothing, otherwise
persist the candidate and return it.  The store is the list of events in
insertion order. -/
def admitEvent (db : List Event) (c : Event) : Event × List Event :=
  match db.find? (fun e => decide (eventKey e = eventKey c)) with
  | some e => (e, db)
  | none => (c, db ++ [c])

theorem find?_key_mem_key {db : List Event} {c e : Event}
    (h : db.find? (fun x => decide (eventKey x = eventKey c)) = some e) :
    e ∈ db ∧ eventKey e = eventKey c := by
  refine ⟨List.mem_of_find?_eq_some h, ?_⟩
  have := List.find?_some h
  simpa using this

theorem countKey_append (l₁ l₂ : List Event) (k) :
    countKey (l₁ ++ l₂) k = countKey l₁ k + countKey l₂ k := by
  simp [countKey, List.countP_append]

/-- C1: The Event Deduplicator is idempotent: when the candidate's identity key is
already stored, `admitEvent` returns the existing record and leaves the store
unchanged; admitting the same candidate a second time returns the same record
and the same store; and starting from a store holding at most one record with
the candidate's key, two admissions leave exactly one stored record with that
key. -/
theorem admitEvent_idempotent (db : List Event) (c : Event)
    (hinv : countKey db (eventKey c) ≤ 1) :
    ((∃ e ∈ db, eventKey e = eventKey c) →
        (admitEvent db c).2 = db ∧ (admitEvent db c).1 ∈ db ∧
        eventKey (admitEvent db c).1 = eventKey c) ∧
    (admitEvent (admitEvent db c).2 c).1 = (admitEvent db c).1 ∧
    (admitEvent (admitEvent db c).2 c).2 = (admitEvent db c).2 ∧
    countKey (admitEvent (admitEvent db c).2 c).2 (eventKey c) = 1 := by
  rcases hfind : db.find? (fun e => decide (eventKey e = eventKey c)) with _ | e
  · -- no stored event matches the key: the candidate is appended
    have hnone : ∀ e ∈ db, eventKey e ≠ eventKey c := by
      intro e he
      have := List.find?_eq_none.mp hfind e he
      simpa using this
    have hcnt0 : countKey db (eventKey c) = 0 := by
      simp only [countKey, List.countP_eq_zero]
      intro e he
      simpa using hnone e he
    have hfind2 : (db ++ [c]).find? (fun e => decide (eventKey e = eventKey c))
        = some c := by
      rw [List.find?_append, hfind]
      simp
    constructor
    · rintro ⟨e, he, hk⟩
      exact absurd hk (hnone e he)
    · simp only [admitEvent, hfind, hfind2]
      refine ⟨trivial, trivial, ?_⟩
      rw [countKey_append, hcnt0]
      simp [countKey]
  · -- an existing record is returned unchanged, no row written
    obtain ⟨hmem, hkey⟩ := find?_key_mem_key hfind
    have hcnt1 : countKey db (eventKey c) = 1 := by
      refine le_antisymm hinv ?_
      have : 0 < countKey db (eventKey c) := by
        simp only [countKey, List.countP_pos_iff]
        exact ⟨e, hmem, by simpa using hkey⟩
      omega
    constructor
    · intro _
      simp only [admitEvent, hfind]
      exact ⟨trivial, hmem, hkey⟩
    · simp only [admitEvent, hfind]
      exact ⟨trivial, trivial, hcnt1⟩

/-- Concrete instance of `admitEvent_idempotent`: admitting one event twice
into an empty store leaves exactly one stored record. -/
theorem admitEvent_idempotent_check :
    countKey ((admitEvent (admitEvent []
        ⟨36000, "W1", "S1", .working, (95 : Rat)/100, 1, 5⟩).2
        ⟨36000, "W1", "S1", .working, (95 : Rat)/100, 1, 5⟩).2)
      (eventKey ⟨36000, "W1", "S1", .working, (95 : Rat)/100, 1, 5⟩) = 1 :=
  (admitEvent_idempotent []
    ⟨36000, "W1", "S1", .working, (95 : Rat)/100, 1, 5⟩ (by decide)).2.2.2

/-- Modelled from the spec: the ordering used by the Event Normalizer/Sorter —
ascending by `timestamp`, ties broken by `received_at`/insertion order for
determinism (spec §4.2). -/
def evLE (a b : Event) : Prop :=
  a.timestamp < b.timestamp ∨
    (a.timestamp = b.timestamp ∧ a.received_at ≤ b.received_at)

instance : DecidableRel evLE := fun a b => by
  unfold evLE
  infer_instance

instance : IsTotal Event evLE := ⟨by
  intro a b
  unfold evLE
  omega⟩

instance : IsTrans Event evLE := ⟨by
  intro a b c hab hbc
  unfold evLE at *
  omega⟩

/-- Modelled from the spec: `ordered(events) -> sequence` (spec §4.2): the
same events sorted ascending by `timestamp`, ties broken by `received_at`. -/
def ordered (l : List Event) : List Event :=
  List.insertionSort evLE l

theorem sorted_perm_unique {α : Type} {r : α → α → Prop} :
    ∀ {l₁ l₂ : List α}, l₁.Sorted r → l₂.Sorted r → l₁.Perm l₂ →
      (∀ a ∈ l₁, ∀ b ∈ l₁, r a b → r b a → a = b) → l₁ = l₂ := by
  intro l₁
  induction l₁ with
  | nil =>
    intro l₂ _ _ p _
    exact p.nil_eq
  | cons a t ih =>
    intro l₂ s₁ s₂ p anti
    cases l₂ with
    | nil => exact absurd p.eq_nil (by simp)
    | cons b t₂ =>
      have hab : a = b := by
        by_contra hne
        have ha2 : a ∈ b :: t₂ := p.mem_iff.mp (List.mem_cons_self a t)
        have hb1 : b ∈ a :: t := p.mem_iff.mpr (List.mem_cons_self b t₂)
        have ha2' : a ∈ t₂ := by
          rcases List.mem_cons.mp ha2 with h | h
          · exact absurd h hne
          · exact h
        have hb1' : b ∈ t := by
          rcases List.mem_cons.mp hb1 with h | h
          · exact absurd h.symm hne
          · exact h
        have rab : r a b := (List.sorted_cons.mp s₁).1 b hb1'
        have rba : r b a := (List.sorted_cons.mp s₂).1 a ha2'
        exact hne (anti a (List.mem_cons_self a t) b hb1 rab rba)
      subst hab
      have ht := ih (List.sorted_cons.mp s₁).2 (List.sorted_cons.mp s₂).2 p.cons_inv
        (fun x hx y hy => anti x (List.mem_cons_of_mem a hx) y (List.mem_cons_of_mem a hy))
      rw [ht]

/-- State of the Duration Accumulator: the currently open interval (state type
and start time) and the per-state accumulated seconds, plus the independently
summed `product_count` units (spec §4.3). -/
structure AccState where
  openInterval : Option (EventType × Nat)
  workingSec : Nat
  idleSec : Nat
  absentSec : Nat
  unitsTotal : Nat
deriving DecidableEq

def AccState.init : AccState :=
  ⟨none, 0, 0, 0, 0⟩

/-- Accumulated seconds attributed to a given state. -/
def AccState.stateSec (s : AccState) : EventType → Nat
  | .working => s.workingSec
  | .idle => s.idleSec
  | .absent => s.absentSec
  | .product_count => 0

/-- Attribute `d` further seconds to state `t`. -/
def addDur (s : AccState) (t : EventType) (d : Nat) : AccState :=
  match t with
  | .working => { s with workingSec := s.workingSec + d }
  | .idle => { s with idleSec := s.idleSec + d }
  | .absent => { s with absentSec := s.absentSec + d }
  | .product_count => s

/-- Modelled from the spec: the Duration Accumulator transition rule
(spec §4.3): a `product_count` event only adds its `count` to the production
total; a state event at time `T` closes the currently open interval
`(S, T0)` with duration `T − T0` attributed to `S`, then opens a new interval
of its own type starting at `T`. -/
def step (s : AccState) (e : Event) : AccState :=
  if e.event_type = .product_count then
    { s with unitsTotal := s.unitsTotal + e.count }
  else
    let s1 :=
      match s.openInterval with
      | some p => addDur s p.1 (e.timestamp - p.2)
      | none => s
    { s1 with openInterval := some (e.event_type, e.timestamp) }

/-- Modelled from the spec: terminal handling (spec §4.3): if an interval is
still open when the sequence is exhausted, it is closed with the configurable
tail-default duration. -/
def finalize (tailSec : Nat) (s : AccState) : AccState :=
  match s.openInterval with
  | some p => { addDur s p.1 tailSec with openInterval := none }
  | none => s

/-- Modelled from the spec: run the Duration Accumulator over a chronological
event sequence and apply terminal handling (spec §4.3). -/
def accumulate (tailSec : Nat) (evs : List Event) : AccState :=
  finalize tailSec (evs.foldl step AccState.init)

/-- Modelled from the spec: the 30-minute tail default (spec §4.3), in
seconds. -/
def defaultTailSec : Nat := 30 * 60

/-- Modelled from the spec: the 8-hour shift window default (spec §4.3), in
seconds. -/
def defaultShiftSec : Nat := 8 * 60 * 60

/-- Modelled from the spec: `ComputationGuard` (spec §7) — any division with
a zero denominator yields `0`, never an exception. -/
def safeDiv (a b : Rat) : Rat :=
  if b = 0 then 0 else a / b

/-- Modelled from the spec: the WorkerMetric wire shape (spec §6); time
fields in minutes. -/
structure WorkerMetric where
  worker_id : String
  total_active_time_minutes : Rat
  total_idle_time_minutes : Rat
  utilization_percentage : Rat
  total_units_produced : Nat
  units_per_hour : Rat
deriving DecidableEq

/-- Modelled from the spec: the Worker Metrics Aggregator (spec §4.4) applied
to one worker's (unordered) event list: sort, accumulate, then derive
`utilization_percentage = 100 * active / (active + idle)` and
`units_per_hour = units / active_hours`, both guarded against zero
denominators. -/
def workerMetricOfEvents (tailSec : Nat) (w : String) (evs : List Event) :
    WorkerMetric :=
  let acc := accumulate tailSec (ordered evs)
  let active : Rat := (acc.workingSec : Rat)
  let idle : Rat := (acc.idleSec : Rat)
  { worker_id := w
    total_active_time_minutes := active / 60
    total_idle_time_minutes := idle / 60
    utilization_percentage := 100 * safeDiv active (active + idle)
    total_units_produced := acc.unitsTotal
    units_per_hour := safeDiv (acc.unitsTotal : Rat) (active / 3600) }

/-- C2: Order invariance of the Event Normalizer/Sorter: for any permutation
of a fixed event set whose `(timestamp, received_at)` sort keys identify the
events, `ordered` produces the identical sequence, so the accumulated
durations and the derived worker metrics are identical — arrival order never
affects any output. -/
theorem ordered_order_invariance (l l' : List Event) (hperm : l.Perm l')
    (hinj : ∀ a ∈ l, ∀ b ∈ l, a.timestamp = b.timestamp →
      a.received_at = b.received_at → a = b) :
    ordered l' = ordered l ∧
    (∀ tailSec, accumulate tailSec (ordered l') =
      accumulate tailSec (ordered l)) ∧
    (∀ tailSec w, workerMetricOfEvents tailSec w l' =
      workerMetricOfEvents tailSec w l) := by
  have hp : (ordered l').Perm (ordered l) :=
    (List.perm_insertionSort evLE l').trans
      (hperm.symm.trans (List.perm_insertionSort evLE l).symm)
  have anti : ∀ a ∈ ordered l', ∀ b ∈ ordered l',
      evLE a b → evLE b a → a = b := by
    intro a ha b hb hab hba
    have ha' : a ∈ l :=
      hperm.mem_iff.mpr ((List.perm_insertionSort evLE l').mem_iff.mp ha)
    have hb' : b ∈ l :=
      hperm.mem_iff.mpr ((List.perm_insertionSort evLE l').mem_iff.mp hb)
    unfold evLE at hab hba
    exact hinj a ha' b hb' (by omega) (by omega)
  have h1 : ordered l' = ordered l :=
    sorted_perm_unique (List.sorted_insertionSort evLE l')
      (List.sorted_insertionSort evLE l) hp anti
  refine ⟨h1, fun t => by rw [h1], fun t w => ?_⟩
  simp only [workerMetricOfEvents, h1]

/-- Concrete instance of `ordered_order_invariance`: the Scenario C events
delivered in reverse chronological order sort and measure identically to the
in-order delivery. -/
theorem ordered_order_invariance_check :
    ordered [⟨37800, "W1", "S1", .idle, 1, 1, 2⟩,
             ⟨36000, "W1", "S1", .working, 1, 1, 1⟩] =
      ordered [⟨36000, "W1", "S1", .working, 1, 1, 1⟩,
               ⟨37800, "W1", "S1", .idle, 1, 1, 2⟩] ∧
    workerMetricOfEvents 1800 "W1"
        [⟨37800, "W1", "S1", .idle, 1, 1, 2⟩,
         ⟨36000, "W1", "S1", .working, 1, 1, 1⟩] =
      workerMetricOfEvents 1800 "W1"
        [⟨36000, "W1", "S1", .working, 1, 1, 1⟩,
         ⟨37800, "W1", "S1", .idle, 1, 1, 2⟩] :=
  ⟨(ordered_order_invariance _ _
      (List.Perm.swap _ _ _) (by decide)).1,
   (ordered_order_invariance _ _
      (List.Perm.swap _ _ _) (by decide)).2.2 1800 "W1"⟩

theorem isState_ne {t : EventType} (h : t.isState = true) :
    t ≠ .product_count := by
  cases t <;> simp_all [EventType.isState]

theorem addDur_unitsTotal (s : AccState) (t : EventType) (d : Nat) :
    (addDur s t d).unitsTotal = s.unitsTotal := by
  cases t <;> rfl

theorem step_unitsTotal (s : AccState) (e : Event) :
    (step s e).unitsTotal =
      if e.event_type = .product_count then s.unitsTotal + e.count
      else s.unitsTotal := by
  by_cases h : e.event_type = .product_count
  · simp [step, h]
  · simp only [step, h, if_neg, ite_false]
    cases s.openInterval with
    | none => rfl
    | some p => simp [addDur_unitsTotal]

theorem finalize_unitsTotal (tailSec : Nat) (s : AccState) :
    (finalize tailSec s).unitsTotal = s.unitsTotal := by
  unfold finalize
  cases s.openInterval with
  | none => rfl
  | some p => simp [addDur_unitsTotal]

theorem foldl_step_unitsTotal (evs : List Event) : ∀ s : AccState,
    (evs.foldl step s).unitsTotal =
      s.unitsTotal +
        ((evs.filter (fun x => decide (x.event_type = .product_count))).map
          (fun x => x.count)).sum := by
  induction evs with
  | nil => intro s; simp
  | cons e t ih =>
    intro s
    simp only [List.foldl_cons, ih, List.filter_cons]
    by_cases h : e.event_type = .product_count
    · simp [step_unitsTotal, h]
      omega
    · simp [step_unitsTotal, h]

/-- C3: The Duration Accumulator transition rule: a state event `E` at time
`T` closes the currently open interval `(S, T0)` with duration `T − T0`
attributed to `S` and opens a new interval of type `E` at `T`; when no
interval is open it only opens one; `product_count` events never touch the
open interval or the state durations — their counts are summed
independently, so the accumulated units equal the sum of the counts of the
`product_count` events. -/
theorem step_state_machine (s : AccState) (e : Event) :
    (e.event_type = .product_count →
        step s e = { s with unitsTotal := s.unitsTotal + e.count }) ∧
    (e.event_type.isState = true → s.openInterval = none →
        step s e = { s with openInterval := some (e.event_type, e.timestamp) }) ∧
    (∀ st t0, e.event_type.isState = true → st.isState = true →
        s.openInterval = some (st, t0) → t0 ≤ e.timestamp →
        step s e = { addDur s st (e.timestamp - t0) with
                       openInterval := some (e.event_type, e.timestamp) } ∧
        (step s e).stateSec st = s.stateSec st + (e.timestamp - t0)) ∧
    (∀ tailSec evs, (accumulate tailSec evs).unitsTotal =
        ((evs.filter (fun x => decide (x.event_type = .product_count))).map
          (fun x => x.count)).sum) := by
  refine ⟨?_, ?_, ?_, ?_⟩
  · intro h
    simp [step, h]
  · intro hs ho
    simp [step, isState_ne hs, ho]
  · intro st t0 hs hst ho hle
    have hne := isState_ne hs
    constructor
    · simp [step, hne, ho]
    · simp only [step, hne, ite_false, ho]
      cases st with
      | working => simp [addDur, AccState.stateSec]
      | idle => simp [addDur, AccState.stateSec]
      | absent => simp [addDur, AccState.stateSec]
      | product_count => simp [EventType.isState] at hst
  · intro tailSec evs
    simp [accumulate, finalize_unitsTotal, foldl_step_unitsTotal,
      AccState.init]

/-- Concrete instance of `step_state_machine`: an `idle` event at `T = 37800`
closes the open `working` interval started at `T0 = 36000`, crediting
`1800` seconds to `working`, and opens an `idle` interval at `37800`. -/
theorem step_state_machine_check :
    step ⟨some (.working, 36000), 0, 0, 0, 0⟩
        ⟨37800, "W1", "S1", .idle, 1, 1, 2⟩ =
      { addDur ⟨some (.working, 36000), 0, 0, 0, 0⟩ .working (37800 - 36000)
          with openInterval := some (.idle, 37800) } ∧
    (step ⟨some (.working, 36000), 0, 0, 0, 0⟩
        ⟨37800, "W1", "S1", .idle, 1, 1, 2⟩).stateSec .working =
      (AccState.mk (some (.working, 36000)) 0 0 0 0).stateSec .working +
        (37800 - 36000) :=
  (step_state_machine ⟨some (.working, 36000), 0, 0, 0, 0⟩
      ⟨37800, "W1", "S1", .idle, 1, 1, 2⟩).2.2.1 .working 36000
    (by decide) (by decide) rfl (by decide)

/-- C4: Terminal handling: whenever the walk over the sequence leaves an
interval of state `st` still open, `accumulate` credits exactly the
configurable tail default to `st` (so the final interval's duration is the
tail default, not zero); in particular an entity with exactly one state event
accumulates exactly the tail default for that state.  The default tail is 30
minutes (1800 seconds). -/
theorem accumulate_tail_default (tailSec : Nat) :
    defaultTailSec = 30 * 60 ∧
    (∀ (evs : List Event) (st : EventType) (t0 : Nat), st.isState = true →
        (evs.foldl step AccState.init).openInterval = some (st, t0) →
        (accumulate tailSec evs).stateSec st =
          (evs.foldl step AccState.init).stateSec st + tailSec) ∧
    (∀ e : Event, e.event_type.isState = true →
        (accumulate tailSec [e]).stateSec e.event_type = tailSec) := by
  refine ⟨rfl, ?_, ?_⟩
  · intro evs st t0 hst ho
    unfold accumulate finalize
    rw [ho]
    cases st with
    | working => simp [addDur, AccState.stateSec]
    | idle => simp [addDur, AccState.stateSec]
    | absent => simp [addDur, AccState.stateSec]
    | product_count => simp [EventType.isState] at hst
  · intro e he
    have hne := isState_ne he
    show (finalize tailSec (step AccState.init e)).stateSec e.event_type
      = tailSec
    simp only [step, hne, ite_false, AccState.init, finalize]
    cases h : e.event_type with
    | working => simp [addDur, AccState.stateSec]
    | idle => simp [addDur, AccState.stateSec]
    | absent => simp [addDur, AccState.stateSec]
    | product_count => exact absurd h hne

/-- Concrete instance of `accumulate_tail_default`: a single `working` event
accumulates exactly the 30-minute default tail of working time. -/
theorem accumulate_tail_default_check :
    (accumulate defaultTailSec
        [⟨36000, "W1", "S1", .working, 1, 1, 1⟩]).stateSec .working =
      defaultTailSec :=
  (accumulate_tail_default defaultTailSec).2.2
    ⟨36000, "W1", "S1", .working, 1, 1, 1⟩ (by decide)

/-- Scenario A of the spec (§8): `working@10:00`, `idle@10:30`,
`working@11:00`, timestamps in seconds since midnight. -/
def scenarioA : List Event :=
  [⟨36000, "W1", "S1", .working, 1, 1, 1⟩,
   ⟨37800, "W1", "S1", .idle, 1, 1, 2⟩,
   ⟨39600, "W1", "S1", .working, 1, 1, 3⟩]

/-- Scenario D of the spec (§8): Scenario A plus `product_count` events at
`10:05` (count 3) and `10:45` (count 2). -/
def scenarioAD : List Event :=
  [⟨36000, "W1", "S1", .working, 1, 1, 1⟩,
   ⟨36300, "W1", "S1", .product_count, 1, 3, 2⟩,
   ⟨37800, "W1", "S1", .idle, 1, 1, 3⟩,
   ⟨38700, "W1", "S1", .product_count, 1, 2, 4⟩,
   ⟨39600, "W1", "S1", .working, 1, 1, 5⟩]

/-- C5: Worker utilization is `100 * active / (active + idle)` where the
denominator is the accumulated working-plus-idle time only, and it is `0`
when that denominator is `0`; `safeDiv` makes the division total, so no
division error can arise.  On Scenario A this yields `200/3 ≈ 66.7%`. -/
theorem utilization_percentage_spec (tailSec : Nat) (w : String)
    (evs : List Event) :
    ((workerMetricOfEvents tailSec w evs).utilization_percentage =
      if ((accumulate tailSec (ordered evs)).workingSec : Rat) +
          ((accumulate tailSec (ordered evs)).idleSec : Rat) = 0 then 0
      else 100 * ((accumulate tailSec (ordered evs)).workingSec : Rat) /
        (((accumulate tailSec (ordered evs)).workingSec : Rat) +
          ((accumulate tailSec (ordered evs)).idleSec : Rat))) ∧
    (workerMetricOfEvents 1800 "W1" scenarioA).utilization_percentage =
      200 / 3 ∧
    (workerMetricOfEvents 1800 "W1" []).utilization_percentage = 0 := by
  refine ⟨?_, ?_, ?_⟩
  · simp only [workerMetricOfEvents, safeDiv]
    split
    · simp
    · rw [mul_div_assoc]
  · have h1 : (accumulate 1800 (ordered scenarioA)).workingSec = 3600 := by
      decide
    have h2 : (accumulate 1800 (ordered scenarioA)).idleSec = 1800 := by
      decide
    simp only [workerMetricOfEvents, h1, h2]
    norm_num [safeDiv]
  · have h1 : (accumulate 1800 (ordered [])).workingSec = 0 := rfl
    have h2 : (accumulate 1800 (ordered [])).idleSec = 0 := rfl
    simp only [workerMetricOfEvents, h1, h2]
    norm_num [safeDiv]

/-- C6: Worker `units_per_hour` is the produced units divided by the
accumulated working time in hours (active time only), and `0` when the
active time is `0`; on Scenario D (5 units over 1.0 active hour) it is
`5.0`. -/
theorem units_per_hour_spec (tailSec : Nat) (w : String)
    (evs : List Event) :
    ((workerMetricOfEvents tailSec w evs).units_per_hour =
      if (accumulate tailSec (ordered evs)).workingSec = 0 then 0
      else ((accumulate tailSec (ordered evs)).unitsTotal : Rat) /
        (((accumulate tailSec (ordered evs)).workingSec : Rat) / 3600)) ∧
    (workerMetricOfEvents 1800 "W1" scenarioAD).units_per_hour = 5 ∧
    (workerMetricOfEvents 1800 "W1" []).units_per_hour = 0 := by
  refine ⟨?_, ?_, ?_⟩
  · simp only [workerMetricOfEvents, safeDiv]
    split
    · next h =>
      have h0 : (accumulate tailSec (ordered evs)).workingSec = 0 := by
        rcases div_eq_zero_iff.mp h with h' | h'
        · exact_mod_cast h'
        · norm_num at h'
      simp [h0]
    · next h =>
      have h0 : ¬ (accumulate tailSec (ordered evs)).workingSec = 0 := by
        intro hc
        exact h (by simp [hc])
      simp [h0]
  · have h1 : (accumulate 1800 (ordered scenarioAD)).workingSec = 3600 := by
      decide
    have h2 : (accumulate 1800 (ordered scenarioAD)).unitsTotal = 5 := by
      decide
    simp only [workerMetricOfEvents, h1, h2]
    norm_num [safeDiv]
  · have h1 : (accumulate 1800 (ordered [])).workingSec = 0 := rfl
    have h2 : (accumulate 1800 (ordered [])).unitsTotal = 0 := rfl
    simp only [workerMetricOfEvents, h1, h2]
    norm_num [safeDiv]

/-- Modelled from the spec: the persistence collaborator's view — the entity
registry plus the full persisted event set (spec §3, §6). -/
structure DB where
  workers : List String
  workstations : List String
  events : List Event

/-- Modelled from the spec: `events_for_worker(worker_id)` (spec §6),
unordered. -/
def eventsForWorker (db : DB) (w : String) : List Event :=
  db.events.filter (fun e => e.worker_id == w)

/-- The Worker Metrics Aggregator applied to one worker of the store. -/
def workerMetricFor (db : DB) (tailSec : Nat) (w : String) : WorkerMetric :=
  workerMetricOfEvents tailSec w (eventsForWorker db w)

/-- Modelled from the spec: workers with at least one recorded event
(spec §4.6). -/
def activeWorkers (db : DB) : List String :=
  db.workers.filter (fun w => !(eventsForWorker db w).isEmpty)

/-- Modelled from the spec: workstations with at least one recorded event
(spec §4.6). -/
def activeStations (db : DB) : List String :=
  db.workstations.filter
    (fun s => !(db.events.filter (fun e => e.workstation_id == s)).isEmpty)

/-- Modelled from the spec: the FactoryMetric wire shape (spec §6). -/
structure FactoryMetric where
  total_productive_time_minutes : Rat
  total_production_count : Nat
  average_production_rate : Rat
  average_utilization_percentage : Rat
  total_workers : Nat
  total_workstations : Nat
deriving DecidableEq

/-- Total accumulated working seconds over all workers of the store. -/
def factoryTotalActiveSec (db : DB) (tailSec : Nat) : Nat :=
  (db.workers.map
    (fun w => (accumulate tailSec (ordered (eventsForWorker db w))).workingSec)).sum

/-- Total produced units over all workers of the store. -/
def factoryUnits (db : DB) (tailSec : Nat) : Nat :=
  (db.workers.map
    (fun w => (accumulate tailSec (ordered (eventsForWorker db w))).unitsTotal)).sum

/-- Modelled from the spec: the Factory Aggregator (spec §4.6):
total productive time is the sum of the workers' active time, the average
utilization is the mean of `utilization_percentage` over workers with at
least one event, and the entity counts report entities with at least one
event. -/
def factoryMetric (db : DB) (tailSec : Nat) : FactoryMetric :=
  { total_productive_time_minutes := (factoryTotalActiveSec db tailSec : Rat) / 60
    total_production_count := factoryUnits db tailSec
    average_production_rate :=
      safeDiv (factoryUnits db tailSec : Rat)
        ((factoryTotalActiveSec db tailSec : Rat) / 3600)
    average_utilization_percentage :=
      safeDiv (((activeWorkers db).map
          (fun w => (workerMetricFor db tailSec w).utilization_percentage)).sum)
        ((activeWorkers db).length : Rat)
    total_workers := (activeWorkers db).length
    total_workstations := (activeStations db).length }

/-- C7: Factory average utilization is the arithmetic mean of
`utilization_percentage` over exactly the workers with at least one recorded
event: it equals the guarded sum-over-count of the event-bearing workers,
and appending a worker with no events to the registry changes neither the
sum nor the divisor. -/
theorem factory_average_utilization (db : DB) (tailSec : Nat) (w0 : String)
    (h0 : eventsForWorker db w0 = []) :
    (factoryMetric db tailSec).average_utilization_percentage =
      safeDiv (((activeWorkers db).map
          (fun w => (workerMetricFor db tailSec w).utilization_percentage)).sum)
        ((activeWorkers db).length : Rat) ∧
    (factoryMetric { db with workers := db.workers ++ [w0] }
        tailSec).average_utilization_percentage =
      (factoryMetric db tailSec).average_utilization_percentage := by
  have hwm : workerMetricFor { db with workers := db.workers ++ [w0] } =
      workerMetricFor db := rfl
  have haw : activeWorkers { db with workers := db.workers ++ [w0] } =
      activeWorkers db := by
    show (db.workers ++ [w0]).filter
        (fun w => !(eventsForWorker db w).isEmpty) = activeWorkers db
    rw [List.filter_append]
    simp [activeWorkers, h0]
  refine ⟨rfl, ?_⟩
  show safeDiv (((activeWorkers { db with workers := db.workers ++ [w0] }).map
      (fun w => (workerMetricFor { db with workers := db.workers ++ [w0] }
        tailSec w).utilization_percentage)).sum)
    ((activeWorkers { db with workers := db.workers ++ [w0] }).length : Rat) = _
  rw [hwm, haw]
  rfl

/-- Concrete instance of `factory_average_utilization`: adding the event-less
worker `W2` to a store whose only events belong to `W1` leaves the factory
average utilization unchanged. -/
theorem factory_average_utilization_check :
    (factoryMetric
        { workers := ["W1", "W2"], workstations := ["S1"], events := scenarioA }
        1800).average_utilization_percentage =
      (factoryMetric
        { workers := ["W1"], workstations := ["S1"], events := scenarioA }
        1800).average_utilization_percentage :=
  (factory_average_utilization
    { workers := ["W1"], workstations := ["S1"], events := scenarioA }
    1800 "W2" (by decide)).2

theorem sum_cast_div (ns : List Nat) (d : Rat) :
    ((ns.sum : Nat) : Rat) / d =
      (ns.map (fun n : Nat => ((n : Rat) / d))).sum := by
  induction ns with
  | nil => simp
  | cons n t ih =>
    rw [List.sum_cons, Nat.cast_add, add_div, ih, List.map_cons,
      List.sum_cons]

/-- C8: Conservation: the factory `total_productive_time_minutes` equals the
sum over all workers of the `total_active_time_minutes` reported in their
`WorkerMetric` — exactly, since the embedding computes in exact rationals. -/
theorem factory_conservation (db : DB) (tailSec : Nat) :
    (factoryMetric db tailSec).total_productive_time_minutes =
      (db.workers.map
        (fun w => (workerMetricFor db tailSec w).total_active_time_minutes)).sum := by
  show (factoryTotalActiveSec db tailSec : Rat) / 60 = _
  rw [factoryTotalActiveSec, sum_cast_div, List.map_map]
  rfl

/-- Worker metric row as consumed by the dashboard (wire shape of
`GET /api/metrics/workers`, including the display `name`). -/
structure WorkerRow where
  worker_id : String
  name : String
  total_active_time_minutes : Rat
  total_idle_time_minutes : Rat
  utilization_percentage : Rat
  total_units_produced : Nat
  units_per_hour : Rat
deriving DecidableEq

/-- Workstation metric row as consumed by the dashboard (wire shape of
`GET /api/metrics/workstations`). -/
structure StationRow where
  station_id : String
  name : String
  occupancy_time_minutes : Rat
  utilization_percentage : Rat
  total_units_produced : Nat
  throughput_rate : Rat
deriving DecidableEq

/-- An HTTP response as seen by the frontend: the `ok` flag and the parsed
JSON body (`none` models a body whose `json()` parse fails).  A failed fetch
(network rejection) is modelled by the surrounding `Option` being `none`. -/
structure HttpResp (α : Type) where
  ok : Bool
  body : Option α
deriving DecidableEq

/-- The React state of `App` in src/frontend/src/App.jsx: the three metric
states, the loading flag and the error state. -/
structure AppState where
  factoryMetrics : Option FactoryMetric
  workerMetrics : List WorkerRow
  workstationMetrics : List StationRow
  loading : Bool
  error : Option String
deriving DecidableEq

/-- Embedded from `fetchMetrics` in src/frontend/src/App.jsx (lines 23-51):
loading is set and the error cleared; the three endpoints are fetched; if
any fetch rejects, any response is not `ok`, or any body fails to parse, the
thrown error is caught and stored and the metric setters never run;
otherwise all three metric states are set from the parsed bodies.  The
result is the component state after the call completes. -/
def fetchMetrics (s : AppState)
    (rf : Option (HttpResp FactoryMetric))
    (rw : Option (HttpResp (List WorkerRow)))
    (rs : Option (HttpResp (List StationRow))) : AppState :=
  let s0 := { s with loading := true, error := none }
  match rf, rw, rs with
  | some f, some w, some st =>
    if f.ok && w.ok && st.ok then
      match f.body, w.body, st.body with
      | some fb, some wb, some sb =>
        { s0 with factoryMetrics := some fb, workerMetrics := wb,
                  workstationMetrics := sb, loading := false }
      | _, _, _ =>
        { s0 with error := some "Failed to parse metrics", loading := false }
    else
      { s0 with error := some "Failed to fetch metrics", loading := false }
  | _, _, _ =>
    { s0 with error := some "Failed to fetch metrics", loading := false }

/-- C9: `App.fetchMetrics` is all-or-nothing: either none of the three
metric states is modified and the error state is set (whenever any fetch
fails, any response is not ok, or any body fails to parse), or all three
fetches succeeded and all three metric states are replaced by the fetched
bodies with the error state cleared. -/
theorem fetchMetrics_all_or_nothing (s : AppState)
    (rf : Option (HttpResp FactoryMetric))
    (rw : Option (HttpResp (List WorkerRow)))
    (rs : Option (HttpResp (List StationRow))) :
    ((fetchMetrics s rf rw rs).factoryMetrics = s.factoryMetrics ∧
     (fetchMetrics s rf rw rs).workerMetrics = s.workerMetrics ∧
     (fetchMetrics s rf rw rs).workstationMetrics = s.workstationMetrics ∧
     ((fetchMetrics s rf rw rs).error).isSome = true) ∨
    (∃ f w st fb wb sb, rf = some f ∧ rw = some w ∧ rs = some st ∧
      f.ok = true ∧ w.ok = true ∧ st.ok = true ∧
      f.body = some fb ∧ w.body = some wb ∧ st.body = some sb ∧
      (fetchMetrics s rf rw rs).factoryMetrics = some fb ∧
      (fetchMetrics s rf rw rs).workerMetrics = wb ∧
      (fetchMetrics s rf rw rs).workstationMetrics = sb ∧
      (fetchMetrics s rf rw rs).error = none) := by
  rcases rf with _ | f
  · left
    simp [fetchMetrics]
  rcases rw with _ | w
  · left
    simp [fetchMetrics]
  rcases rs with _ | st
  · left
    simp [fetchMetrics]
  obtain ⟨fok, fbody⟩ := f
  obtain ⟨wok, wbody⟩ := w
  obtain ⟨sok, sbody⟩ := st
  by_cases hok : (fok && wok && sok) = true
  · rcases fbody with _ | fb
    · left
      simp [fetchMetrics, hok]
    rcases wbody with _ | wb
    · left
      simp [fetchMetrics, hok]
    rcases sbody with _ | sb
    · left
      simp [fetchMetrics, hok]
    right
    obtain ⟨⟨hf, hw⟩, hs⟩ : (fok = true ∧ wok = true) ∧ sok = true := by
      simpa [Bool.and_eq_true] using hok
    exact ⟨⟨fok, some fb⟩, ⟨wok, some wb⟩, ⟨sok, some sb⟩, fb, wb, sb,
      rfl, rfl, rfl, hf, hw, hs, rfl, rfl, rfl,
      by simp [fetchMetrics, hok], by simp [fetchMetrics, hok],
      by simp [fetchMetrics, hok], by simp [fetchMetrics, hok]⟩
  · left
    simp [fetchMetrics, hok]

/-- Rendering of the WorkerMetrics component: either the fixed
"no data" card or the dashboard built from the rows' fields. -/
inductive WorkerRender where
  | noData
  | dashboard (cards : List (String × String × Rat × Rat × Rat × Nat × Rat))

/-- Embedded from src/frontend/src/components/WorkerMetrics.jsx (lines 6-13
and onward): a null/undefined or empty `metrics` prop renders the fixed
"No worker data available" card; otherwise the cards and table are built
from each worker's name, id, utilization, times, units and rate. -/
def renderWorkerMetrics (metrics : Option (List WorkerRow)) : WorkerRender :=
  match metrics with
  | none => .noData
  | some [] => .noData
  | some rows => .dashboard (rows.map (fun w =>
      (w.name, w.worker_id, w.utilization_percentage,
       w.total_active_time_minutes, w.total_idle_time_minutes,
       w.total_units_produced, w.units_per_hour)))

/-- Rendering of the WorkstationMetrics component. -/
inductive StationRender where
  | noData
  | dashboard (cards : List (String × String × Rat × Rat × Nat × Rat))

/-- Embedded from src/frontend/src/components/WorkstationMetrics.jsx
(lines 6-13 and onward): a null/undefined or empty `metrics` prop renders
the fixed "No workstation data available" card; otherwise the cards and
table are built from each station's fields. -/
def renderWorkstationMetrics (metrics : Option (List StationRow)) :
    StationRender :=
  match metrics with
  | none => .noData
  | some [] => .noData
  | some rows => .dashboard (rows.map (fun st =>
      (st.name, st.station_id, st.utilization_percentage,
       st.occupancy_time_minutes, st.total_units_produced,
       st.throughput_rate)))

/-- Rendering of the FactorySummary component: `null` or the overview built
from the factory metric's fields. -/
inductive FactoryRender where
  | nothing
  | overview (stats : Rat × Nat × Rat × Rat × Nat × Nat)

/-- Embedded from src/frontend/src/components/FactorySummary.jsx (lines 1-2
and onward): a null/undefined `metrics` prop renders nothing; otherwise the
overview is built from the factory metric's fields. -/
def renderFactorySummary (metrics : Option FactoryMetric) : FactoryRender :=
  match metrics with
  | none => .nothing
  | some m => .overview
      (m.total_productive_time_minutes / 60, m.total_production_count,
       m.average_utilization_percentage, m.average_production_rate,
       m.total_workers, m.total_workstations)

/-- C10: every dashboard component is total on missing data: a
null/undefined metrics prop (and, for the two list components, an empty
list) renders the fixed placeholder — respectively nothing for
FactorySummary — and no field of any metric record is dereferenced on that
path. -/
theorem dashboard_total_on_missing_data :
    renderWorkerMetrics none = .noData ∧
    renderWorkerMetrics (some []) = .noData ∧
    renderWorkstationMetrics none = .noData ∧
    renderWorkstationMetrics (some []) = .noData ∧
    renderFactorySummary none = .nothing :=
  ⟨rfl, rfl, rfl, rfl, rfl⟩

end Productivity
